import Mathlib

/-!
Verification of the package-operator controllers against their specification.

The Go sources are shallowly embedded: pure helpers become Lean functions,
client calls (Get/Create/Update/Patch/Delete/List/Watch/Free) are modelled by
outcome parameters supplied by the environment, and every performed call is
recorded in an explicit operation trace so that frame properties ("no writes
happened") and ordering properties ("free before finalizer removal") are
directly statable.
-/

namespace PackageOperator

/-! ## Embedding of internal/controllers/controllers.go -/

/-- A Kubernetes object as seen by the finalizer helpers: its identifying
metadata and finalizer list.  Mirrors the `client.Object` surface used by
`EnsureFinalizer` / `RemoveFinalizer`. -/
structure KObject where
  name : String
  namespace_ : String
  resourceVersion : String
  finalizers : List String
deriving DecidableEq, Repr

/-- `controllerutil.ContainsFinalizer`. -/
def containsFinalizer (obj : KObject) (finalizer : String) : Bool :=
  obj.finalizers.contains finalizer

/-- `controllerutil.AddFinalizer`: appends the finalizer if absent. -/
def addFinalizer (obj : KObject) (finalizer : String) : KObject :=
  if containsFinalizer obj finalizer then obj
  else { obj with finalizers := obj.finalizers ++ [finalizer] }

/-- `controllerutil.RemoveFinalizer`: removes every occurrence. -/
def removeFinalizerMeta (obj : KObject) (finalizer : String) : KObject :=
  { obj with finalizers := obj.finalizers.filter (fun f => f != finalizer) }

/-- The JSON merge-patch payload built by `EnsureFinalizer`/`RemoveFinalizer`:
`{"metadata": {"resourceVersion": ..., "finalizers": ...}}`. -/
structure FinalizersPatch where
  resourceVersion : String
  finalizers : List String
deriving DecidableEq, Repr

/-- Client calls issued by the controllers.go helpers. -/
inductive ClientOp where
  | patchFinalizers (objName : String) (payload : FinalizersPatch)
  | free (objName : String)
deriving DecidableEq, Repr

/-- `CachedFinalizer` constant from controllers.go. -/
def CachedFinalizer : String := "package-operator.run/cached"

/-- `EnsureFinalizer` from controllers.go (lines 31-55).  `patchRes` is the
outcome of the `c.Patch` call; the returned triple is the possibly mutated
in-memory object, the trace of issued client calls, and the error result.
`json.Marshal` of the patch map cannot fail and is modelled as total. -/
def EnsureFinalizer (patchRes : Except String Unit) (obj : KObject)
    (finalizer : String) : KObject × List ClientOp × Except String Unit :=
  if containsFinalizer obj finalizer then (obj, [], .ok ())
  else
    let obj := addFinalizer obj finalizer
    let payload : FinalizersPatch := ⟨obj.resourceVersion, obj.finalizers⟩
    match patchRes with
    | .error e =>
        (obj, [ClientOp.patchFinalizers obj.name payload],
          .error ("adding finalizer: " ++ e))
    | .ok _ => (obj, [ClientOp.patchFinalizers obj.name payload], .ok ())

/-- `RemoveFinalizer` from controllers.go (lines 58-82). -/
def RemoveFinalizer (patchRes : Except String Unit) (obj : KObject)
    (finalizer : String) : KObject × List ClientOp × Except String Unit :=
  if !containsFinalizer obj finalizer then (obj, [], .ok ())
  else
    let obj := removeFinalizerMeta obj finalizer
    let payload : FinalizersPatch := ⟨obj.resourceVersion, obj.finalizers⟩
    match patchRes with
    | .error e =>
        (obj, [ClientOp.patchFinalizers obj.name payload],
          .error ("removing finalizer: " ++ e))
    | .ok _ => (obj, [ClientOp.patchFinalizers obj.name payload], .ok ())

/-- `FreeCacheAndRemoveFinalizer` from controllers.go (lines 95-104).
`freeRes` is the outcome of `cache.Free`; the `Free` call is always issued
first and recorded at the head of the trace. -/
def FreeCacheAndRemoveFinalizer (freeRes : Except String Unit)
    (patchRes : Except String Unit) (obj : KObject) :
    KObject × List ClientOp × Except String Unit :=
  match freeRes with
  | .error e => (obj, [ClientOp.free obj.name], .error ("free cache: " ++ e))
  | .ok _ =>
      let r := RemoveFinalizer patchRes obj CachedFinalizer
      (r.1, ClientOp.free obj.name :: r.2.1, r.2.2)

/-! ## Status conditions (k8s.io/apimachinery `meta` helpers and
controllers.go condition mapping) -/

/-- `metav1.Condition` restricted to the fields the code reads or writes.
`LastTransitionTime` is wall-clock state and is omitted. -/
structure Condition where
  type_ : String
  status : String
  reason : String
  message : String
  observedGeneration : Int
deriving DecidableEq, Repr

/-- `meta.FindStatusCondition`: first condition with the given type. -/
def findStatusCondition (conds : List Condition) (t : String) : Option Condition :=
  conds.find? (fun c => c.type_ == t)

/-- Field update performed by `meta.SetStatusCondition` on an existing entry. -/
def setConditionFields (c newC : Condition) : Condition :=
  { c with status := newC.status, reason := newC.reason,
           message := newC.message, observedGeneration := newC.observedGeneration }

/-- Updates the first condition whose type matches `newC.Type`, as
`meta.SetStatusCondition` does through the pointer returned by
`FindStatusCondition`. -/
def updateFirstCondition : List Condition → Condition → List Condition
  | [], _ => []
  | c :: rest, newC =>
      if c.type_ == newC.type_ then setConditionFields c newC :: rest
      else c :: updateFirstCondition rest newC

/-- `meta.SetStatusCondition`: upsert by type, reporting whether any observed
field changed. -/
def setStatusCondition (conds : List Condition) (newC : Condition) :
    List Condition × Bool :=
  match findStatusCondition conds newC.type_ with
  | none => (conds ++ [newC], true)
  | some existing =>
      (updateFirstCondition conds newC,
        existing.status != newC.status || existing.reason != newC.reason ||
        existing.message != newC.message ||
        existing.observedGeneration != newC.observedGeneration)

/-- `IsMappedCondition` from controllers.go (line 135): the type contains a
slash. -/
def IsMappedCondition (cond : Condition) : Bool :=
  cond.type_.contains '/'

/-- `MapConditions` from controllers.go (lines 139-163). -/
def MapConditions (srcGeneration : Int) (srcConditions : List Condition)
    (destGeneration : Int) (destConditions : List Condition) : List Condition :=
  srcConditions.foldl (fun dest condition =>
    if condition.observedGeneration != srcGeneration then dest
    else if !IsMappedCondition condition then dest
    else
      (setStatusCondition dest
        { type_ := condition.type_, status := condition.status,
          reason := condition.reason, message := condition.message,
          observedGeneration := destGeneration }).1) destConditions

/-- Restatement of the specified behaviour of `MapConditions`: select exactly
the source conditions that are current (observed generation equals the source
generation) and mapped (type contains a slash), rewrite their observed
generation to the destination generation keeping type, status, reason and
message, and upsert each into the destination. -/
def mapConditionsSpec (srcGeneration : Int) (srcConditions : List Condition)
    (destGeneration : Int) (destConditions : List Condition) : List Condition :=
  ((srcConditions.filter (fun c =>
      c.observedGeneration == srcGeneration && IsMappedCondition c)).map
    (fun c => { c with observedGeneration := destGeneration })).foldl
      (fun dest c => (setStatusCondition dest c).1) destConditions

/-! ## Embedding of internal/controllers/secretsync/reconcilers.go -/

/-- `v1alpha1.NamespacedName`. -/
structure NamespacedName where
  namespace_ : String
  name : String
deriving DecidableEq, Repr

/-- A core/v1 Secret as the reconciler sees it; the payload is opaque. -/
structure Secret where
  payload : String
deriving DecidableEq, Repr

/-- `v1alpha1.SecretSyncStrategy`: which of the pointer fields `Watch` /
`Poll` are non-nil. -/
structure SecretSyncStrategy where
  watch : Bool
  poll : Bool
deriving DecidableEq, Repr

/-- `v1alpha1.SecretSyncSpec` restricted to the fields reconcilers.go reads. -/
structure SecretSyncSpec where
  paused : Bool
  strategy : SecretSyncStrategy
  src : NamespacedName
  dest : List NamespacedName
deriving DecidableEq, Repr

/-- `v1alpha1.SecretSyncStatusPhaseSync` (value modelled; the apis package is
not part of the sources, only its use sites). -/
def SecretSyncStatusPhaseSync : String := "Sync"

/-- `v1alpha1.SecretSyncSync` condition type (value modelled as above). -/
def SecretSyncSync : String := "Sync"

/-- `v1alpha1.SecretSyncStatus` restricted to the fields reconcilers.go
touches. -/
structure SecretSyncStatus where
  conditions : List Condition
  phase : String
  controllerOf : List NamespacedName
deriving DecidableEq, Repr

/-- `v1alpha1.SecretSync`: `deletionTimestampIsZero` models
`DeletionTimestamp.IsZero()`. -/
structure SecretSync where
  name : String
  generation : Int
  deletionTimestampIsZero : Bool
  spec : SecretSyncSpec
  status : SecretSyncStatus
deriving DecidableEq, Repr

/-- `reconcileResult` from the secretsync package. -/
structure ReconcileResult where
  statusChanged : Bool
deriving DecidableEq, Repr

/-- Store and cache calls issued by `secretReconciler.Reconcile`, recorded in
order. -/
inductive SSOp where
  | ensureCachedFinalizer
  | ensureDynamicCacheLabel (target : NamespacedName)
  | watch (target : NamespacedName)
  | getSecret (target : NamespacedName)
  | setControllerRef (target : NamespacedName)
  | patchSecret (target : NamespacedName)
  | listManaged (managedBy : String)
  | deleteSecret (target : NamespacedName)
deriving DecidableEq, Repr

/-- Outcomes of the calls `secretReconciler.Reconcile` makes, supplied by the
environment (the mocked client/cache in the tests).  `deleteRes` models the
result after `client.IgnoreNotFound`. -/
structure SecretEnv where
  ensureCachedFinalizerRes : Except String Unit
  ensureDynamicCacheLabelRes : Except String Unit
  watchRes : NamespacedName → Except String Unit
  getSrcCachedRes : Except String Secret
  getSrcUncachedRes : Except String Secret
  setControllerRefRes : NamespacedName → Except String Unit
  patchRes : NamespacedName → Except String Unit
  listManagedRes : Except String (List NamespacedName)
  deleteRes : NamespacedName → Except String Unit

/-- The watch-strategy setup block of `secretReconciler.Reconcile`
(reconcilers.go lines 103-130): cached finalizer, dynamic cache label on the
source, watch on the source — each error wrapped with its operation context. -/
def watchSetup (env : SecretEnv) (secretSync : SecretSync) :
    List SSOp × Except String Unit :=
  if !secretSync.spec.strategy.watch then ([], .ok ())
  else
    match env.ensureCachedFinalizerRes with
    | .error e =>
        ([SSOp.ensureCachedFinalizer], .error ("adding cached finalizer: " ++ e))
    | .ok _ =>
        match env.ensureDynamicCacheLabelRes with
        | .error e =>
            ([SSOp.ensureCachedFinalizer,
              SSOp.ensureDynamicCacheLabel secretSync.spec.src],
              .error ("adding dynamic cache label: " ++ e))
        | .ok _ =>
            match env.watchRes secretSync.spec.src with
            | .error e =>
                ([SSOp.ensureCachedFinalizer,
                  SSOp.ensureDynamicCacheLabel secretSync.spec.src,
                  SSOp.watch secretSync.spec.src],
                  .error ("watching source secret: " ++ e))
            | .ok _ =>
                ([SSOp.ensureCachedFinalizer,
                  SSOp.ensureDynamicCacheLabel secretSync.spec.src,
                  SSOp.watch secretSync.spec.src], .ok ())

/-- The destination loop of `secretReconciler.Reconcile` (lines 145-185):
per destination watch, set controller reference, apply-patch; returns the
accumulated `controllerOf` list, trace and first error. -/
def syncDests (env : SecretEnv) :
    List NamespacedName → List NamespacedName × List SSOp × Except String Unit
  | [] => ([], [], .ok ())
  | dest :: rest =>
      match env.watchRes dest with
      | .error e =>
          ([], [SSOp.watch dest], .error ("watching new resource: " ++ e))
      | .ok _ =>
          match env.setControllerRefRes dest with
          | .error e =>
              ([], [SSOp.watch dest, SSOp.setControllerRef dest],
                .error ("setting controller reference: " ++ e))
          | .ok _ =>
              match env.patchRes dest with
              | .error e =>
                  ([], [SSOp.watch dest, SSOp.setControllerRef dest,
                    SSOp.patchSecret dest],
                    .error ("patching destination secret: " ++ e))
              | .ok _ =>
                  let r := syncDests env rest
                  (dest :: r.1,
                    SSOp.watch dest :: SSOp.setControllerRef dest ::
                      SSOp.patchSecret dest :: r.2.1, r.2.2)

/-- The garbage-collection loop of `secretReconciler.Reconcile`
(lines 196-214): delete each listed managed secret that is no longer in
`controllerOf`. -/
def gcSecrets (env : SecretEnv) (controllerOf : List NamespacedName) :
    List NamespacedName → List SSOp × Except String Unit
  | [] => ([], .ok ())
  | m :: rest =>
      if controllerOf.contains m then gcSecrets env controllerOf rest
      else
        match env.deleteRes m with
        | .error e =>
            ([SSOp.deleteSecret m], .error ("deleting uncontrolled Secret: " ++ e))
        | .ok _ =>
            let r := gcSecrets env controllerOf rest
            (SSOp.deleteSecret m :: r.1, r.2)

/-- `secretReconciler.Reconcile` (reconcilers.go lines 96-237).  Returns the
updated SecretSync, the reconcile result, the trace of store/cache calls and
the error outcome.  The `default: panic(ErrInvalidStrategy)` branch of
`srcReaderForStrategy` is modelled as a distinguished error. -/
def secretReconcilerReconcile (env : SecretEnv) (secretSync : SecretSync) :
    SecretSync × ReconcileResult × List SSOp × Except String Unit :=
  if secretSync.spec.paused || !secretSync.deletionTimestampIsZero then
    (secretSync, ⟨false⟩, [], .ok ())
  else
    let setup := watchSetup env secretSync
    match setup.2 with
    | .error e => (secretSync, ⟨false⟩, setup.1, .error e)
    | .ok _ =>
        if !secretSync.spec.strategy.watch && !secretSync.spec.strategy.poll then
          (secretSync, ⟨false⟩, setup.1, .error "panic: invalid strategy")
        else
          match (if secretSync.spec.strategy.watch then env.getSrcCachedRes
                 else env.getSrcUncachedRes) with
          | .error e =>
              (secretSync, ⟨false⟩,
                setup.1 ++ [SSOp.getSecret secretSync.spec.src],
                .error ("getting source object: " ++ e))
          | .ok _srcSecret =>
              let getOps := setup.1 ++ [SSOp.getSecret secretSync.spec.src]
              let ds := syncDests env secretSync.spec.dest
              match ds.2.2 with
              | .error e => (secretSync, ⟨false⟩, getOps ++ ds.2.1, .error e)
              | .ok _ =>
                  match env.listManagedRes with
                  | .error e =>
                      (secretSync, ⟨false⟩,
                        getOps ++ ds.2.1 ++ [SSOp.listManaged secretSync.name],
                        .error ("listing managed secrets: " ++ e))
                  | .ok managed =>
                      let gc := gcSecrets env ds.1 managed
                      let allOps := getOps ++ ds.2.1 ++
                        [SSOp.listManaged secretSync.name] ++ gc.1
                      match gc.2 with
                      | .error e => (secretSync, ⟨false⟩, allOps, .error e)
                      | .ok _ =>
                          let sc := setStatusCondition secretSync.status.conditions
                            { type_ := SecretSyncSync, status := "True",
                              reason := "SuccessfulSync",
                              message := "Synchronization completed successfully.",
                              observedGeneration := secretSync.generation }
                          let statusChanged := sc.2 ||
                            secretSync.status.controllerOf != ds.1 ||
                            secretSync.status.phase != SecretSyncStatusPhaseSync
                          ({ secretSync with status :=
                              { conditions := sc.1,
                                phase := SecretSyncStatusPhaseSync,
                                controllerOf := ds.1 } },
                            ⟨statusChanged⟩, allOps, .ok ())

/-- The operation-context prefixes with which `secretReconciler.Reconcile`
wraps the errors it surfaces. -/
def opContexts : List String :=
  ["adding cached finalizer: ", "adding dynamic cache label: ",
   "watching source secret: ", "getting source object: ",
   "watching new resource: ", "setting controller reference: ",
   "patching destination secret: ", "listing managed secrets: ",
   "deleting uncontrolled Secret: "]

/-- An error string carrying one of the operation contexts. -/
def WrappedByContext (e : String) : Prop :=
  ∃ ctx ∈ opContexts, ∃ m, e = ctx ++ m

/-! ## Spec-model of the deployment reconciler (internal/packages)

The implementation of `newDeploymentReconciler` (its `Reconcile`,
`reconcileSlice`, `sliceGarbageCollection` and `sliceCollisionError`) is not
among the sources; only its test file is.  The definitions below are modelled
from the spec (sections 4.1, 4.4, 7, 8 and design note 9) and checked against
the behaviour the test file records. -/

/-- `corev1alpha1.ObjectSetObject`: a single object template, payload opaque. -/
structure ObjectSetObject where
  object : String
deriving DecidableEq, Repr

/-- `corev1alpha1.ObjectSetTemplatePhase`: a named phase holding inline object
templates and/or slice references. -/
structure ObjectSetTemplatePhase where
  name : String
  objects : List ObjectSetObject
  slices : List String
deriving DecidableEq, Repr

/-- The deployment data the reconciler reads: name, namespace and the desired
template phases. -/
structure DeploymentModel where
  name : String
  namespace_ : String
  phases : List ObjectSetTemplatePhase
deriving DecidableEq, Repr

/-- Store calls issued by the deployment reconciler, recorded in order. -/
inductive DeployOp where
  | getRevision
  | createRevision (phases : List ObjectSetTemplatePhase)
  | createSlice (name : String) (objects : List ObjectSetObject)
  | getSlice (name : String)
  | updateRevision (phases : List ObjectSetTemplatePhase)
  | listRevisions
  | listSlices
  | deleteSlice (name : String)
deriving DecidableEq, Repr

/-- Errors surfaced by the deployment reconciler.  `sliceCollision` is the
distinct, explicitly named `sliceCollisionError`. -/
inductive DeployErr where
  | sliceCollision (namespace_ name : String)
  | sliceRetriesExhausted
  | conflictRetriesExhausted
  | clientError (msg : String)
deriving DecidableEq, Repr

/-- Modelled from the spec: `sliceCollisionError.Error()` renders the
colliding object key, observed in the test file as
`ObjectSlice collision with test/test` for key namespace/name `test`/`test`. -/
def DeployErr.message : DeployErr → String
  | .sliceCollision ns n => "ObjectSlice collision with " ++ ns ++ "/" ++ n
  | .sliceRetriesExhausted => "slice creation retries exhausted"
  | .conflictRetriesExhausted => "conflict retries exhausted"
  | .clientError m => m

/-- The stored ObjectSlices: an association of slice name to content. -/
structure SliceStore where
  slices : List (String × List ObjectSetObject)
deriving DecidableEq, Repr

/-- Content stored under a slice name, if any. -/
def SliceStore.lookup (st : SliceStore) (n : String) :
    Option (List ObjectSetObject) :=
  (st.slices.find? (fun p => p.1 == n)).map Prod.snd

/-- Modelled from the spec: the slice name is derived deterministically from
the owning deployment's name and a hash of the slice content (§3, §4.4); the
hash function itself is a parameter of the model. -/
def sliceName (deployName h : String) : String := deployName ++ "-" ++ h

/-- Modelled from the spec: `reconcileSlice` (§4.1, §7, §8, design note 9).
`hash content salt` names the content at the given collision count.  Create is
attempted; on Already-Exists the existing slice is read back and compared:
differing content is escalated as the collision error without touching the
store, while an identical read-back is followed by a further salted Create
(the spec scenario observes a second Create call), bounded by `fuel`. -/
def reconcileSlice (hash : List ObjectSetObject → Nat → String)
    (deployName ns : String) (objects : List ObjectSetObject) :
    Nat → Nat → SliceStore →
      SliceStore × List DeployOp × Except DeployErr String
  | 0, _, st => (st, [], .error .sliceRetriesExhausted)
  | Nat.succ fuel, salt, st =>
      let n := sliceName deployName (hash objects salt)
      match st.lookup n with
      | none =>
          (⟨st.slices ++ [(n, objects)]⟩, [DeployOp.createSlice n objects], .ok n)
      | some existing =>
          if existing == objects then
            let r := reconcileSlice hash deployName ns objects fuel (salt + 1) st
            (r.1, DeployOp.createSlice n objects :: DeployOp.getSlice n :: r.2.1,
              r.2.2)
          else
            (st, [DeployOp.createSlice n objects, DeployOp.getSlice n],
              .error (.sliceCollision ns n))

/-- Number of Create calls in a trace. -/
def countCreates (ops : List DeployOp) : Nat :=
  (ops.filter (fun op => match op with
    | DeployOp.createSlice _ _ => true
    | _ => false)).length

/-- Modelled from the spec: slicing one phase list into stored slices.  Each
chunk produced by the chunker is persisted through `reconcileSlice` and the
final slice names are collected in order. -/
def reconcileChunks (hash : List ObjectSetObject → Nat → String)
    (deployName ns : String) (fuel : Nat) :
    List (List ObjectSetObject) → SliceStore →
      SliceStore × List String × List DeployOp × Except DeployErr Unit
  | [], st => (st, [], [], .ok ())
  | chunk :: rest, st =>
      let r := reconcileSlice hash deployName ns chunk fuel 0 st
      match r.2.2 with
      | .error e => (r.1, [], r.2.1, .error e)
      | .ok n =>
          let t := reconcileChunks hash deployName ns fuel rest r.1
          (t.1, n :: t.2.1, r.2.1 ++ t.2.2.1, t.2.2.2)

/-- Modelled from the spec (§4.1): each phase's oversized content is extracted
into slices before the revision is written; the phase then stores the slice
names in place of the extracted objects, preserving ordering across mixed
inline/sliced content.  The chunker decides which objects stay inline and how
the rest are grouped. -/
def reconcilePhases (hash : List ObjectSetObject → Nat → String)
    (deployName ns : String) (fuel : Nat)
    (chunker : List ObjectSetObject →
      List ObjectSetObject × List (List ObjectSetObject)) :
    List ObjectSetTemplatePhase → SliceStore →
      SliceStore × List ObjectSetTemplatePhase × List DeployOp ×
        Except DeployErr Unit
  | [], st => (st, [], [], .ok ())
  | ph :: rest, st =>
      let c := chunker ph.objects
      let r := reconcileChunks hash deployName ns fuel c.2 st
      match r.2.2.2 with
      | .error e => (r.1, [], r.2.2.1, .error e)
      | .ok _ =>
          let t := reconcilePhases hash deployName ns fuel chunker rest r.1
          (t.1,
            { name := ph.name, objects := c.1, slices := ph.slices ++ r.2.1 }
              :: t.2.1,
            r.2.2.1 ++ t.2.2.1, t.2.2.2)

/-- `EachObjectChunker` from the test file: every object becomes its own
chunk, nothing stays inline. -/
def EachObjectChunker (objs : List ObjectSetObject) :
    List ObjectSetObject × List (List ObjectSetObject) :=
  ([], objs.map (fun o => [o]))

/-- Slice names referenced by the desired template or by any live revision. -/
def referencedSliceNames (desired : List ObjectSetTemplatePhase)
    (liveRevisions : List (List ObjectSetTemplatePhase)) : List String :=
  (desired.map (fun ph => ph.slices)).flatten ++
    (liveRevisions.map (fun rev => (rev.map (fun ph => ph.slices)).flatten)).flatten

/-- Modelled from the spec (§4.1, §8): rollback-safe slice garbage
collection.  `liveRevisions` are the revisions selected by the deployment's
selector, `stored` the slice names owned by the deployment; exactly the
stored slices referenced neither by the current desired template nor by any
live revision are deleted.  Returns the deleted names and the trace. -/
def sliceGarbageCollection (deploy : DeploymentModel)
    (liveRevisions : List (List ObjectSetTemplatePhase))
    (stored : List String) : List String × List DeployOp :=
  let referenced := referencedSliceNames deploy.phases liveRevisions
  let deleted := stored.filter (fun s => !referenced.contains s)
  (deleted,
    DeployOp.listRevisions :: DeployOp.listSlices ::
      deleted.map DeployOp.deleteSlice)

/-- Update outcomes scripted by the environment for successive revision
Update calls; an exhausted script means success. -/
inductive UpdateResult where
  | ok
  | conflict
  | err (msg : String)
deriving DecidableEq, Repr

/-- Modelled from the spec (§4.1, §7): optimistic-concurrency writes.  A
version conflict on Update triggers a re-read and a re-application of the
change, bounded by `retries` attempts before the conflict is surfaced. -/
def updateRevisionWithRetry :
    Nat → List UpdateResult → List ObjectSetTemplatePhase →
      List DeployOp × Except DeployErr Unit
  | 0, _, _ => ([], .error .conflictRetriesExhausted)
  | Nat.succ r, script, phases =>
      match script with
      | [] => ([DeployOp.updateRevision phases], .ok ())
      | UpdateResult.ok :: _ => ([DeployOp.updateRevision phases], .ok ())
      | UpdateResult.conflict :: rest =>
          let t := updateRevisionWithRetry r rest phases
          (DeployOp.updateRevision phases :: DeployOp.getRevision :: t.1, t.2)
      | UpdateResult.err m :: _ =>
          ([DeployOp.updateRevision phases], .error (.clientError m))

/-- The revision and slices held by the store, from the deployment
reconciler's point of view. -/
structure DeployStore where
  revision : Option (List ObjectSetTemplatePhase)
  slices : SliceStore
deriving DecidableEq, Repr

/-- Bound on salted slice-creation retries (design note 9 requires an
explicit bound). -/
def maxSliceRetries : Nat := 5

/-- Bound on conflict retries (§4.1 requires a bound). -/
def maxConflictRetries : Nat := 5

/-- Modelled from the spec: the deployment reconciler's `Reconcile` (§4.1
and the §8 scenario).  It reads the revision, creates it with an empty
template when missing, extracts each phase's content into slices, updates the
revision to reference the slice names under optimistic concurrency, and then
runs slice garbage collection. -/
def DeploymentReconcile (hash : List ObjectSetObject → Nat → String)
    (chunker : List ObjectSetObject →
      List ObjectSetObject × List (List ObjectSetObject))
    (deploy : DeploymentModel)
    (liveRevisions : List (List ObjectSetTemplatePhase))
    (updateScript : List UpdateResult) (st : DeployStore) :
    DeployStore × List DeployOp × Except DeployErr Unit :=
  let created := match st.revision with
    | none => ({ st with revision := some [] },
        [DeployOp.getRevision, DeployOp.createRevision []])
    | some _ => (st, [DeployOp.getRevision])
  let st1 := created.1
  let ops1 := created.2
  let r := reconcilePhases hash deploy.name deploy.namespace_ maxSliceRetries
    chunker deploy.phases st1.slices
  match r.2.2.2 with
  | .error e => ({ st1 with slices := r.1 }, ops1 ++ r.2.2.1, .error e)
  | .ok _ =>
      let newPhases := r.2.1
      let st2 : DeployStore := { revision := st1.revision, slices := r.1 }
      let u := updateRevisionWithRetry maxConflictRetries updateScript newPhases
      match u.2 with
      | .error e => (st2, ops1 ++ r.2.2.1 ++ u.1, .error e)
      | .ok _ =>
          let st3 : DeployStore := { st2 with revision := some newPhases }
          let stored := st3.slices.slices.map Prod.fst
          let gc := sliceGarbageCollection { deploy with phases := newPhases }
            liveRevisions stored
          let st4 : DeployStore := { st3 with slices :=
            ⟨st3.slices.slices.filter (fun p => !gc.1.contains p.1)⟩ }
          (st4, ops1 ++ r.2.2.1 ++ u.1 ++ gc.2, .ok ())

/-! ## Theorems -/

/-- Unfolding of `MapConditions` over a cons. -/
theorem MapConditions_cons (g dg : Int) (c : Condition) (cs dest : List Condition) :
    MapConditions g (c :: cs) dg dest =
      MapConditions g cs dg
        (if c.observedGeneration != g then dest
         else if !IsMappedCondition c then dest
         else
           (setStatusCondition dest
             { type_ := c.type_, status := c.status, reason := c.reason,
               message := c.message, observedGeneration := dg }).1) := rfl

/-- `MapConditions` agrees with its filter/rewrite/upsert reading. -/
theorem mapConditions_eq_spec (g dg : Int) :
    ∀ (src dest : List Condition),
      MapConditions g src dg dest = mapConditionsSpec g src dg dest := by
  intro src
  induction src with
  | nil => intro dest; rfl
  | cons c cs ih =>
      intro dest
      rw [MapConditions_cons]
      by_cases h1 : c.observedGeneration = g
      · by_cases h2 : IsMappedCondition c
        · simp only [h1, bne_self_eq_false, Bool.false_eq_true, if_false, h2,
            Bool.not_true, if_false, ih]
          simp only [mapConditionsSpec, List.filter_cons, h1, h2,
            beq_self_eq_true, Bool.and_self, if_true, List.map_cons,
            List.foldl_cons]
        · have hb : IsMappedCondition c = false := by
            simpa using h2
          simp only [h1, bne_self_eq_false, Bool.false_eq_true, if_false, hb,
            Bool.not_false, if_true, ih]
          simp only [mapConditionsSpec, List.filter_cons, hb, Bool.and_false,
            Bool.false_eq_true, if_false]
      · have hb : (c.observedGeneration != g) = true := by
          simpa [bne] using h1
        simp only [hb, if_true, ih]
        simp only [mapConditionsSpec, List.filter_cons]
        have hb2 : (c.observedGeneration == g) = false := by
          simpa using h1
        simp only [hb2, Bool.false_and, Bool.false_eq_true, if_false]

/-- C6: `FreeCacheAndRemoveFinalizer` frees the owner's cache registrations
before removing the cached finalizer; when `Free` fails the error is returned
wrapped with `free cache:`, no patch is issued and the finalizer list is left
untouched. -/
theorem FreeCacheAndRemoveFinalizer_free_first :
    (∀ (obj : KObject) (patchRes : Except String Unit) (e : String),
      FreeCacheAndRemoveFinalizer (Except.error e) patchRes obj =
        (obj, [ClientOp.free obj.name], Except.error ("free cache: " ++ e))) ∧
    (∀ (obj : KObject) (freeRes patchRes : Except String Unit),
      ((FreeCacheAndRemoveFinalizer freeRes patchRes obj).2.1).head? =
        some (ClientOp.free obj.name)) := by
  constructor
  · intro obj patchRes e; rfl
  · intro obj freeRes patchRes
    cases freeRes <;> rfl

/-- C8: `EnsureFinalizer` is a no-op (no patch, nil error) when the finalizer
is already present, `RemoveFinalizer` is a no-op when it is absent, and every
patch either issues carries the object's current resource version in its
payload. -/
theorem finalizer_patch_idempotent_and_versioned :
    (∀ (patchRes : Except String Unit) (obj : KObject) (f : String),
      containsFinalizer obj f = true →
        EnsureFinalizer patchRes obj f = (obj, [], Except.ok ())) ∧
    (∀ (patchRes : Except String Unit) (obj : KObject) (f : String),
      containsFinalizer obj f = false →
        RemoveFinalizer patchRes obj f = (obj, [], Except.ok ())) ∧
    (∀ (patchRes : Except String Unit) (obj : KObject) (f n : String)
       (p : FinalizersPatch),
      ClientOp.patchFinalizers n p ∈ (EnsureFinalizer patchRes obj f).2.1 →
        p.resourceVersion = obj.resourceVersion) ∧
    (∀ (patchRes : Except String Unit) (obj : KObject) (f n : String)
       (p : FinalizersPatch),
      ClientOp.patchFinalizers n p ∈ (RemoveFinalizer patchRes obj f).2.1 →
        p.resourceVersion = obj.resourceVersion) := by
  refine ⟨?_, ?_, ?_, ?_⟩
  · intro patchRes obj f h
    simp [EnsureFinalizer, h]
  · intro patchRes obj f h
    simp [RemoveFinalizer, h]
  · intro patchRes obj f n p hmem
    by_cases h : containsFinalizer obj f
    · simp [EnsureFinalizer, h] at hmem
    · simp [EnsureFinalizer, h, addFinalizer] at hmem
      rcases patchRes with e | u <;> simp_all
  · intro patchRes obj f n p hmem
    by_cases h : containsFinalizer obj f
    · simp [RemoveFinalizer, h, removeFinalizerMeta] at hmem
      rcases patchRes with e | u <;> simp_all
    · simp [RemoveFinalizer, h] at hmem

/-- Witness for C8 at concrete objects. -/
theorem finalizer_patch_idempotent_and_versioned_witness :
    (EnsureFinalizer (Except.ok ()) ⟨"o", "ns", "rv7", ["fin"]⟩ "fin" =
      (⟨"o", "ns", "rv7", ["fin"]⟩, [], Except.ok ())) ∧
    (RemoveFinalizer (Except.ok ()) ⟨"o", "ns", "rv7", []⟩ "fin" =
      (⟨"o", "ns", "rv7", []⟩, [], Except.ok ())) ∧
    ((⟨"rv7", ["fin"]⟩ : FinalizersPatch).resourceVersion = "rv7") ∧
    ((⟨"rv7", []⟩ : FinalizersPatch).resourceVersion = "rv7") :=
  ⟨finalizer_patch_idempotent_and_versioned.1 (Except.ok ())
      ⟨"o", "ns", "rv7", ["fin"]⟩ "fin" (by decide),
   finalizer_patch_idempotent_and_versioned.2.1 (Except.ok ())
      ⟨"o", "ns", "rv7", []⟩ "fin" (by decide),
   finalizer_patch_idempotent_and_versioned.2.2.1 (Except.ok ())
      ⟨"o", "ns", "rv7", []⟩ "fin" "o" ⟨"rv7", ["fin"]⟩ (by decide),
   finalizer_patch_idempotent_and_versioned.2.2.2 (Except.ok ())
      ⟨"o", "ns", "rv7", ["fin"]⟩ "fin" "o" ⟨"rv7", []⟩ (by decide)⟩

/-- C9: `MapConditions` copies into the destination exactly the source
conditions that are current (observed generation equals the source
generation) and mapped (type contains a slash), rewriting their observed
generation to the destination generation while keeping type, status, reason
and message; any other source condition leaves the destination untouched. -/
theorem MapConditions_copies_exactly_mapped_current :
    (∀ (srcGeneration : Int) (srcConditions : List Condition)
       (destGeneration : Int) (destConditions : List Condition),
      MapConditions srcGeneration srcConditions destGeneration destConditions =
        mapConditionsSpec srcGeneration srcConditions destGeneration
          destConditions) ∧
    (∀ (srcGeneration : Int) (c : Condition) (destGeneration : Int)
       (destConditions : List Condition),
      (c.observedGeneration ≠ srcGeneration ∨ IsMappedCondition c = false) →
        MapConditions srcGeneration [c] destGeneration destConditions =
          destConditions) := by
  constructor
  · intro g src dg dest
    exact mapConditions_eq_spec g dg src dest
  · intro g c dg dest h
    rw [MapConditions_cons]
    rcases h with h | h
    · have hb : (c.observedGeneration != g) = true := by simpa [bne] using h
      simp [hb, MapConditions]
    · by_cases h1 : c.observedGeneration = g
      · simp [h1, h, MapConditions]
      · have hb : (c.observedGeneration != g) = true := by simpa [bne] using h1
        simp [hb, MapConditions]

/-- Witness for C9: a source condition with a stale generation leaves the
destination unchanged. -/
theorem MapConditions_copies_exactly_mapped_current_witness :
    MapConditions 1 [⟨"pkg/Available", "True", "r", "m", 0⟩] 5
      [⟨"Ready", "True", "r", "m", 3⟩] = [⟨"Ready", "True", "r", "m", 3⟩] :=
  MapConditions_copies_exactly_mapped_current.2 1
    ⟨"pkg/Available", "True", "r", "m", 0⟩ 5 [⟨"Ready", "True", "r", "m", 3⟩]
    (Or.inl (by decide))

/-- C10: a paused or deleting SecretSync makes `secretReconciler.Reconcile`
return immediately: empty result, nil error, no store reads or writes, and
the SecretSync (status included) unchanged. -/
theorem secretReconciler_paused_or_deleting_noop :
    ∀ (env : SecretEnv) (ss : SecretSync),
      (ss.spec.paused = true ∨ ss.deletionTimestampIsZero = false) →
        secretReconcilerReconcile env ss = (ss, ⟨false⟩, [], Except.ok ()) := by
  intro env ss h
  unfold secretReconcilerReconcile
  rcases h with h | h <;> simp [h]

/-- A concrete environment in which every store/cache call succeeds. -/
def okSecretEnv : SecretEnv where
  ensureCachedFinalizerRes := .ok ()
  ensureDynamicCacheLabelRes := .ok ()
  watchRes := fun _ => .ok ()
  getSrcCachedRes := .ok ⟨"data"⟩
  getSrcUncachedRes := .ok ⟨"data"⟩
  setControllerRefRes := fun _ => .ok ()
  patchRes := fun _ => .ok ()
  listManagedRes := .ok []
  deleteRes := fun _ => .ok ()

/-- A concrete paused SecretSync. -/
def pausedSecretSync : SecretSync where
  name := "ss"
  generation := 3
  deletionTimestampIsZero := true
  spec :=
    { paused := true, strategy := ⟨true, false⟩, src := ⟨"ns", "src"⟩,
      dest := [⟨"ns", "d1"⟩] }
  status := { conditions := [], phase := "Pending", controllerOf := [] }

/-- Witness for C10 on a concrete paused SecretSync. -/
theorem secretReconciler_paused_or_deleting_noop_witness :
    secretReconcilerReconcile okSecretEnv pausedSecretSync =
      (pausedSecretSync, ⟨false⟩, [], Except.ok ()) :=
  secretReconciler_paused_or_deleting_noop okSecretEnv pausedSecretSync
    (Or.inl rfl)

/-- Errors surfaced by the watch-strategy setup block carry their operation
context. -/
theorem watchSetup_error_wrapped (env : SecretEnv) (ss : SecretSync)
    (e : String) : (watchSetup env ss).2 = Except.error e →
      WrappedByContext e := by
  intro h
  unfold watchSetup at h
  by_cases hw : ss.spec.strategy.watch
  · simp only [hw, Bool.not_true, Bool.false_eq_true, if_false] at h
    cases hfin : env.ensureCachedFinalizerRes with
    | error m =>
        rw [hfin] at h
        simp only [Except.error.injEq] at h
        exact ⟨"adding cached finalizer: ", by simp [opContexts], m, h.symm⟩
    | ok _ =>
        rw [hfin] at h
        cases hlab : env.ensureDynamicCacheLabelRes with
        | error m =>
            rw [hlab] at h
            simp only [Except.error.injEq] at h
            exact ⟨"adding dynamic cache label: ", by simp [opContexts], m,
              h.symm⟩
        | ok _ =>
            rw [hlab] at h
            cases hwa : env.watchRes ss.spec.src with
            | error m =>
                rw [hwa] at h
                simp only [Except.error.injEq] at h
                exact ⟨"watching source secret: ", by simp [opContexts], m,
                  h.symm⟩
            | ok _ => rw [hwa] at h; simp at h
  · simp [hw] at h

/-- Errors surfaced by the destination loop carry their operation context. -/
theorem syncDests_error_wrapped (env : SecretEnv) :
    ∀ (dests : List NamespacedName) (e : String),
      (syncDests env dests).2.2 = Except.error e → WrappedByContext e := by
  intro dests
  induction dests with
  | nil => intro e h; simp [syncDests] at h
  | cons d rest ih =>
      intro e h
      unfold syncDests at h
      cases hw : env.watchRes d with
      | error m =>
          rw [hw] at h
          simp only [Except.error.injEq] at h
          exact ⟨"watching new resource: ", by simp [opContexts], m, h.symm⟩
      | ok _ =>
          rw [hw] at h
          cases hs : env.setControllerRefRes d with
          | error m =>
              rw [hs] at h
              simp only [Except.error.injEq] at h
              exact ⟨"setting controller reference: ", by simp [opContexts],
                m, h.symm⟩
          | ok _ =>
              rw [hs] at h
              cases hp : env.patchRes d with
              | error m =>
                  rw [hp] at h
                  simp only [Except.error.injEq] at h
                  exact ⟨"patching destination secret: ", by simp [opContexts],
                    m, h.symm⟩
              | ok _ =>
                  rw [hp] at h
                  exact ih e h

/-- Errors surfaced by the garbage-collection loop carry their operation
context. -/
theorem gcSecrets_error_wrapped (env : SecretEnv)
    (controllerOf : List NamespacedName) :
    ∀ (managed : List NamespacedName) (e : String),
      (gcSecrets env controllerOf managed).2 = Except.error e →
        WrappedByContext e := by
  intro managed
  induction managed with
  | nil => intro e h; simp [gcSecrets] at h
  | cons m rest ih =>
      intro e h
      unfold gcSecrets at h
      by_cases hc : controllerOf.contains m
      · rw [if_pos hc] at h
        exact ih e h
      · rw [if_neg hc] at h
        cases hd : env.deleteRes m with
        | error msg =>
            rw [hd] at h
            simp only [Except.error.injEq] at h
            exact ⟨"deleting uncontrolled Secret: ", by simp [opContexts],
              msg, h.symm⟩
        | ok _ =>
            rw [hd] at h
            exact ih e h

/-- C7: every error surfaced by the reconcile operations is wrapped with the
operation context that produced it — any error returned by
`secretReconciler.Reconcile` under a valid strategy carries one of the
operation-context prefixes, `EnsureFinalizer` wraps patch failures with
`adding finalizer:`, and `FreeCacheAndRemoveFinalizer` wraps `Free` failures
with `free cache:`. -/
theorem reconcile_errors_carry_operation_context :
    (∀ (env : SecretEnv) (ss : SecretSync) (e : String),
      (ss.spec.strategy.watch = true ∨ ss.spec.strategy.poll = true) →
      (secretReconcilerReconcile env ss).2.2.2 = Except.error e →
        WrappedByContext e) ∧
    (∀ (patchErr : String) (obj : KObject) (f : String),
      containsFinalizer obj f = false →
        (EnsureFinalizer (Except.error patchErr) obj f).2.2 =
          Except.error ("adding finalizer: " ++ patchErr)) ∧
    (∀ (patchRes : Except String Unit) (obj : KObject) (e : String),
      (FreeCacheAndRemoveFinalizer (Except.error e) patchRes obj).2.2 =
        Except.error ("free cache: " ++ e)) := by
  refine ⟨?_, ?_, ?_⟩
  · intro env ss e hv h
    simp only [secretReconcilerReconcile] at h
    by_cases hskip : (ss.spec.paused || !ss.deletionTimestampIsZero) = true
    · rw [if_pos hskip] at h; simp at h
    · rw [if_neg hskip] at h
      cases hsetup : (watchSetup env ss).2 with
      | error m =>
          rw [hsetup] at h
          simp only [Except.error.injEq] at h
          exact h ▸ watchSetup_error_wrapped env ss m hsetup
      | ok _ =>
          rw [hsetup] at h
          have hvb : (!ss.spec.strategy.watch && !ss.spec.strategy.poll) = false := by
            rcases hv with hv | hv <;> simp [hv]
          rw [hvb] at h
          simp only [Bool.false_eq_true, if_false] at h
          cases hget : (if ss.spec.strategy.watch = true then env.getSrcCachedRes
                        else env.getSrcUncachedRes) with
          | error m =>
              rw [hget] at h
              simp only [Except.error.injEq] at h
              exact ⟨"getting source object: ", by simp [opContexts], m,
                h.symm⟩
          | ok src =>
              rw [hget] at h
              simp only [] at h
              cases hds : (syncDests env ss.spec.dest).2.2 with
              | error m =>
                  rw [hds] at h
                  simp only [Except.error.injEq] at h
                  exact h ▸ syncDests_error_wrapped env ss.spec.dest m hds
              | ok _ =>
                  rw [hds] at h
                  simp only [] at h
                  cases hl : env.listManagedRes with
                  | error m =>
                      rw [hl] at h
                      simp only [Except.error.injEq] at h
                      exact ⟨"listing managed secrets: ", by simp [opContexts],
                        m, h.symm⟩
                  | ok managed =>
                      rw [hl] at h
                      simp only [] at h
                      cases hgc : (gcSecrets env (syncDests env ss.spec.dest).1
                          managed).2 with
                      | error m =>
                          rw [hgc] at h
                          simp only [Except.error.injEq] at h
                          exact h ▸ gcSecrets_error_wrapped env
                            (syncDests env ss.spec.dest).1 managed m hgc
                      | ok _ => rw [hgc] at h; simp at h
  · intro patchErr obj f hf
    simp [EnsureFinalizer, hf]
  · intro patchRes obj e
    rfl

/-- An environment whose cached-finalizer patch fails. -/
def badFinalizerEnv : SecretEnv :=
  { okSecretEnv with ensureCachedFinalizerRes := .error "boom" }

/-- A live, unpaused SecretSync with watch strategy. -/
def liveSecretSync : SecretSync where
  name := "ss"
  generation := 3
  deletionTimestampIsZero := true
  spec :=
    { paused := false, strategy := ⟨true, false⟩, src := ⟨"ns", "src"⟩,
      dest := [⟨"ns", "d1"⟩] }
  status := { conditions := [], phase := "Pending", controllerOf := [] }

/-- Witness for C7 at concrete failing calls. -/
theorem reconcile_errors_carry_operation_context_witness :
    WrappedByContext "adding cached finalizer: boom" ∧
    ((EnsureFinalizer (Except.error "boom") ⟨"o", "ns", "rv", []⟩ "fin").2.2 =
      Except.error ("adding finalizer: " ++ "boom")) ∧
    ((FreeCacheAndRemoveFinalizer (Except.error "boom") (Except.ok ())
        ⟨"o", "ns", "rv", []⟩).2.2 =
      Except.error ("free cache: " ++ "boom")) :=
  ⟨reconcile_errors_carry_operation_context.1 badFinalizerEnv liveSecretSync
      "adding cached finalizer: boom" (Or.inl rfl) rfl,
   reconcile_errors_carry_operation_context.2.1 "boom" ⟨"o", "ns", "rv", []⟩
      "fin" (by decide),
   reconcile_errors_carry_operation_context.2.2 (Except.ok ())
      ⟨"o", "ns", "rv", []⟩ "boom"⟩

/-- Creating a slice whose computed name is unused stores it and succeeds
with a single Create. -/
theorem reconcileSlice_fresh (hash : List ObjectSetObject → Nat → String)
    (dn ns : String) (objs : List ObjectSetObject) (fuel salt : Nat)
    (st : SliceStore)
    (hst : st.lookup (sliceName dn (hash objs salt)) = none) :
    reconcileSlice hash dn ns objs (fuel + 1) salt st =
      (⟨st.slices ++ [(sliceName dn (hash objs salt), objs)]⟩,
       [DeployOp.createSlice (sliceName dn (hash objs salt)) objs],
       Except.ok (sliceName dn (hash objs salt))) := by
  simp [reconcileSlice, hst]

/-- Slicing the single-phase template of the C1 scenario against an empty
store: one slice is created, the phase comes back referencing it. -/
theorem reconcile_single_phase (hash : List ObjectSetObject → Nat → String)
    (o : ObjectSetObject) :
    reconcilePhases hash "test-depl" "ns" maxSliceRetries EachObjectChunker
        [⟨"test", [o], []⟩] ⟨[]⟩ =
      (⟨[(sliceName "test-depl" (hash [o] 0), [o])]⟩,
       [⟨"test", [], [sliceName "test-depl" (hash [o] 0)]⟩],
       [DeployOp.createSlice (sliceName "test-depl" (hash [o] 0)) [o]],
       Except.ok ()) := by
  have e1 : reconcileSlice hash "test-depl" "ns" [o] maxSliceRetries 0 ⟨[]⟩ =
      (⟨[(sliceName "test-depl" (hash [o] 0), [o])]⟩,
       [DeployOp.createSlice (sliceName "test-depl" (hash [o] 0)) [o]],
       Except.ok (sliceName "test-depl" (hash [o] 0))) :=
    reconcileSlice_fresh hash "test-depl" "ns" [o] 4 0 ⟨[]⟩ rfl
  simp [reconcilePhases, reconcileChunks, EachObjectChunker, e1]

/-- An exhausted update script means the first Update succeeds. -/
theorem updateWithRetry_nil (r : Nat) (ph : List ObjectSetTemplatePhase) :
    updateRevisionWithRetry (r + 1) [] ph =
      ([DeployOp.updateRevision ph], Except.ok ()) := rfl

/-- Garbage collection deletes nothing when the only stored slice is the one
the desired template references. -/
theorem gc_single_fresh (n : String) :
    sliceGarbageCollection ⟨"test-depl", "ns", [⟨"test", [], [n]⟩]⟩ [] [n] =
      ([], [DeployOp.listRevisions, DeployOp.listSlices]) := by
  simp [sliceGarbageCollection, referencedSliceNames]

/-- C1: reconciling the one-phase deployment `test-depl` with no existing
revision first creates a revision with an empty phase list, then creates a
slice holding exactly the single object template under the
deterministically derived name `test-depl-<hash>`, and then updates the
revision to phases `[{name := test, slices := [test-depl-754bcb585]}]`
(using the observed hash value). -/
theorem DeploymentReconcile_initial_scenario
    (hash : List ObjectSetObject → Nat → String) (o : ObjectSetObject)
    (h : hash [o] 0 = "754bcb585") :
    DeploymentReconcile hash EachObjectChunker
        ⟨"test-depl", "ns", [⟨"test", [o], []⟩]⟩ [] [] ⟨none, ⟨[]⟩⟩ =
      (⟨some [⟨"test", [], ["test-depl-754bcb585"]⟩],
        ⟨[("test-depl-754bcb585", [o])]⟩⟩,
       [DeployOp.getRevision, DeployOp.createRevision [],
        DeployOp.createSlice "test-depl-754bcb585" [o],
        DeployOp.updateRevision [⟨"test", [], ["test-depl-754bcb585"]⟩],
        DeployOp.listRevisions, DeployOp.listSlices],
       Except.ok ()) := by
  have hn : sliceName "test-depl" (hash [o] 0) = "test-depl-754bcb585" := by
    simp [sliceName, h]
  have e3 := reconcile_single_phase hash o
  rw [hn] at e3
  have e4 : updateRevisionWithRetry maxConflictRetries []
      [⟨"test", [], ["test-depl-754bcb585"]⟩] =
      ([DeployOp.updateRevision [⟨"test", [], ["test-depl-754bcb585"]⟩]],
        Except.ok ()) :=
    updateWithRetry_nil 4 _
  have e5 := gc_single_fresh "test-depl-754bcb585"
  simp only [DeploymentReconcile, e3, e4]
  simp [e5]

/-- Witness for C1 with a hash function realizing the observed value. -/
theorem DeploymentReconcile_initial_scenario_witness :
    DeploymentReconcile (fun _ _ => "754bcb585") EachObjectChunker
        ⟨"test-depl", "ns", [⟨"test", [⟨"obj0"⟩], []⟩]⟩ [] [] ⟨none, ⟨[]⟩⟩ =
      (⟨some [⟨"test", [], ["test-depl-754bcb585"]⟩],
        ⟨[("test-depl-754bcb585", [⟨"obj0"⟩])]⟩⟩,
       [DeployOp.getRevision, DeployOp.createRevision [],
        DeployOp.createSlice "test-depl-754bcb585" [⟨"obj0"⟩],
        DeployOp.updateRevision [⟨"test", [], ["test-depl-754bcb585"]⟩],
        DeployOp.listRevisions, DeployOp.listSlices],
       Except.ok ()) :=
  DeploymentReconcile_initial_scenario (fun _ _ => "754bcb585") ⟨"obj0"⟩ rfl

/-- C2: slice garbage collection deletes exactly the stored slices outside
the union of the desired template's slice references and the live revisions'
slice references; concretely, with the desired template referencing
`slice0-xxx`, one live revision referencing `slice1-xxx` and stored slices
`slice0-xxx, slice1-xxx, slice2-xxx`, exactly `slice2-xxx` is deleted. -/
theorem sliceGarbageCollection_exact :
    (∀ (deploy : DeploymentModel)
       (liveRevisions : List (List ObjectSetTemplatePhase))
       (stored : List String) (s : String),
      s ∈ (sliceGarbageCollection deploy liveRevisions stored).1 ↔
        s ∈ stored ∧
          ¬ ((∃ ph ∈ deploy.phases, s ∈ ph.slices) ∨
             ∃ rev ∈ liveRevisions, ∃ ph ∈ rev, s ∈ ph.slices)) ∧
    (sliceGarbageCollection ⟨"test-depl", "", [⟨"", [], ["slice0-xxx"]⟩]⟩
        [[⟨"test", [], ["slice1-xxx"]⟩]]
        ["slice0-xxx", "slice1-xxx", "slice2-xxx"] =
      (["slice2-xxx"],
       [DeployOp.listRevisions, DeployOp.listSlices,
        DeployOp.deleteSlice "slice2-xxx"])) := by
  constructor
  · intro deploy live stored s
    have hgc : s ∈ (sliceGarbageCollection deploy live stored).1 ↔
        s ∈ stored ∧ s ∉ referencedSliceNames deploy.phases live := by
      simp [sliceGarbageCollection, List.mem_filter]
    have hr : s ∈ referencedSliceNames deploy.phases live ↔
        ((∃ ph ∈ deploy.phases, s ∈ ph.slices) ∨
         ∃ rev ∈ live, ∃ ph ∈ rev, s ∈ ph.slices) := by
      constructor
      · intro hmem
        rcases List.mem_append.mp hmem with h1 | h2
        · rcases List.mem_flatten.mp h1 with ⟨l, hl, hin⟩
          rcases List.mem_map.mp hl with ⟨ph, hph, rfl⟩
          exact Or.inl ⟨ph, hph, hin⟩
        · rcases List.mem_flatten.mp h2 with ⟨l, hl, hin⟩
          rcases List.mem_map.mp hl with ⟨rev, hrev, rfl⟩
          rcases List.mem_flatten.mp hin with ⟨l2, hl2, hin2⟩
          rcases List.mem_map.mp hl2 with ⟨ph, hph, rfl⟩
          exact Or.inr ⟨rev, hrev, ph, hph, hin2⟩
      · intro hd
        rcases hd with ⟨ph, hph, hin⟩ | ⟨rev, hrev, ph, hph, hin⟩
        · exact List.mem_append.mpr (Or.inl (List.mem_flatten.mpr
            ⟨ph.slices, List.mem_map.mpr ⟨ph, hph, rfl⟩, hin⟩))
        · exact List.mem_append.mpr (Or.inr (List.mem_flatten.mpr
            ⟨(rev.map (fun p => p.slices)).flatten,
             List.mem_map.mpr ⟨rev, hrev, rfl⟩,
             List.mem_flatten.mpr
               ⟨ph.slices, List.mem_map.mpr ⟨ph, hph, rfl⟩, hin⟩⟩))
    exact hgc.trans (and_congr_right fun _ => not_congr hr)
  · rfl

/-- Witness for C2 applying the general characterisation at the scenario. -/
theorem sliceGarbageCollection_exact_witness :
    "slice2-xxx" ∈ (sliceGarbageCollection
        ⟨"test-depl", "", [⟨"", [], ["slice0-xxx"]⟩]⟩
        [[⟨"test", [], ["slice1-xxx"]⟩]]
        ["slice0-xxx", "slice1-xxx", "slice2-xxx"]).1 :=
  (sliceGarbageCollection_exact.1 ⟨"test-depl", "", [⟨"", [], ["slice0-xxx"]⟩]⟩
      [[⟨"test", [], ["slice1-xxx"]⟩]]
      ["slice0-xxx", "slice1-xxx", "slice2-xxx"] "slice2-xxx").mpr
    (by decide)

/-- C3: attempting to store a slice under an occupied name with different
content returns the named collision error, leaves the store untouched, and
the error renders as `ObjectSlice collision with <namespace>/<name>`. -/
theorem reconcileSlice_collision :
    (∀ (hash : List ObjectSetObject → Nat → String) (dn ns : String)
       (c1 c2 : List ObjectSetObject) (st : SliceStore) (fuel salt : Nat),
      st.lookup (sliceName dn (hash c2 salt)) = some c1 → c1 ≠ c2 →
        reconcileSlice hash dn ns c2 (fuel + 1) salt st =
          (st,
           [DeployOp.createSlice (sliceName dn (hash c2 salt)) c2,
            DeployOp.getSlice (sliceName dn (hash c2 salt))],
           Except.error
             (DeployErr.sliceCollision ns (sliceName dn (hash c2 salt))))) ∧
    (∀ ns n : String, (DeployErr.sliceCollision ns n).message =
      "ObjectSlice collision with " ++ ns ++ "/" ++ n) ∧
    ((DeployErr.sliceCollision "test" "test").message =
      "ObjectSlice collision with test/test") := by
  refine ⟨?_, ?_, rfl⟩
  · intro hash dn ns c1 c2 st fuel salt hst hne
    have hb : (c1 == c2) = false := by
      simpa using hne
    simp [reconcileSlice, hst, hb]
  · intro ns n; rfl

/-- Witness for C3 at a concrete store and contents. -/
theorem reconcileSlice_collision_witness :
    reconcileSlice (fun _ _ => "abc") "test-depl" "testns" [⟨"c2"⟩] 5 0
        ⟨[("test-depl-abc", [⟨"c1"⟩])]⟩ =
      (⟨[("test-depl-abc", [⟨"c1"⟩])]⟩,
       [DeployOp.createSlice "test-depl-abc" [⟨"c2"⟩],
        DeployOp.getSlice "test-depl-abc"],
       Except.error (DeployErr.sliceCollision "testns" "test-depl-abc")) :=
  reconcileSlice_collision.1 (fun _ _ => "abc") "test-depl" "testns"
    [⟨"c1"⟩] [⟨"c2"⟩] ⟨[("test-depl-abc", [⟨"c1"⟩])]⟩ 4 0 rfl (by decide)

/-- C4: when Create hits Already-Exists and the re-read content is identical
to the pending slice, the reconcile ends in success with no collision error,
and exactly two Create calls appear in the trace. -/
theorem reconcileSlice_identical_success :
    ∀ (hash : List ObjectSetObject → Nat → String) (dn ns : String)
      (objs : List ObjectSetObject) (st : SliceStore) (fuel salt : Nat),
      st.lookup (sliceName dn (hash objs salt)) = some objs →
      st.lookup (sliceName dn (hash objs (salt + 1))) = none →
        reconcileSlice hash dn ns objs (fuel + 2) salt st =
          (⟨st.slices ++ [(sliceName dn (hash objs (salt + 1)), objs)]⟩,
           [DeployOp.createSlice (sliceName dn (hash objs salt)) objs,
            DeployOp.getSlice (sliceName dn (hash objs salt)),
            DeployOp.createSlice (sliceName dn (hash objs (salt + 1))) objs],
           Except.ok (sliceName dn (hash objs (salt + 1)))) ∧
        countCreates (reconcileSlice hash dn ns objs (fuel + 2) salt st).2.1 =
          2 := by
  intro hash dn ns objs st fuel salt hocc hfree
  have heq : reconcileSlice hash dn ns objs (fuel + 2) salt st =
      (⟨st.slices ++ [(sliceName dn (hash objs (salt + 1)), objs)]⟩,
       [DeployOp.createSlice (sliceName dn (hash objs salt)) objs,
        DeployOp.getSlice (sliceName dn (hash objs salt)),
        DeployOp.createSlice (sliceName dn (hash objs (salt + 1))) objs],
       Except.ok (sliceName dn (hash objs (salt + 1)))) := by
    have h2 : fuel + 2 = (fuel + 1) + 1 := rfl
    rw [h2]
    simp [reconcileSlice, hocc, hfree]
  exact ⟨heq, by rw [heq]; rfl⟩

/-- Witness for C4 at a concrete occupied store. -/
theorem reconcileSlice_identical_success_witness :
    reconcileSlice (fun _ s => if s == 0 then "aaa" else "bbb") "test-depl"
        "ns" [⟨"o"⟩] 5 0 ⟨[("test-depl-aaa", [⟨"o"⟩])]⟩ =
      (⟨[("test-depl-aaa", [⟨"o"⟩]), ("test-depl-bbb", [⟨"o"⟩])]⟩,
       [DeployOp.createSlice "test-depl-aaa" [⟨"o"⟩],
        DeployOp.getSlice "test-depl-aaa",
        DeployOp.createSlice "test-depl-bbb" [⟨"o"⟩]],
       Except.ok "test-depl-bbb") :=
  (reconcileSlice_identical_success (fun _ s => if s == 0 then "aaa" else "bbb")
    "test-depl" "ns" [⟨"o"⟩] ⟨[("test-depl-aaa", [⟨"o"⟩])]⟩ 3 0 rfl rfl).1

/-- C5: a version conflict on the revision Update triggers a re-read and a
re-application, bounded by the retry budget: an all-conflict run surfaces an
error after the budget is spent, and a single conflict followed by a
successful Update lets Reconcile return no error. -/
theorem updateRevision_conflict_retry :
    (∀ (phases : List ObjectSetTemplatePhase) (r : Nat)
       (rest : List UpdateResult),
      updateRevisionWithRetry (r + 1) (UpdateResult.conflict :: rest) phases =
        (DeployOp.updateRevision phases :: DeployOp.getRevision ::
          (updateRevisionWithRetry r rest phases).1,
         (updateRevisionWithRetry r rest phases).2)) ∧
    (∀ (phases : List ObjectSetTemplatePhase) (r : Nat),
      (updateRevisionWithRetry r (List.replicate r UpdateResult.conflict)
          phases).2 = Except.error DeployErr.conflictRetriesExhausted) ∧
    (∀ (hash : List ObjectSetObject → Nat → String) (o : ObjectSetObject),
      (DeploymentReconcile hash EachObjectChunker
          ⟨"test-depl", "ns", [⟨"test", [o], []⟩]⟩ []
          [UpdateResult.conflict, UpdateResult.ok] ⟨none, ⟨[]⟩⟩).2.2 =
        Except.ok ()) := by
  refine ⟨fun _ _ _ => rfl, ?_, ?_⟩
  · intro phases r
    induction r with
    | zero => rfl
    | succ k ih =>
        simpa [updateRevisionWithRetry, List.replicate] using ih
  · intro hash o
    have e3 := reconcile_single_phase hash o
    have e4 : updateRevisionWithRetry maxConflictRetries
        [UpdateResult.conflict, UpdateResult.ok]
        [⟨"test", [], [sliceName "test-depl" (hash [o] 0)]⟩] =
        ([DeployOp.updateRevision
            [⟨"test", [], [sliceName "test-depl" (hash [o] 0)]⟩],
          DeployOp.getRevision,
          DeployOp.updateRevision
            [⟨"test", [], [sliceName "test-depl" (hash [o] 0)]⟩]],
          Except.ok ()) := rfl
    simp only [DeploymentReconcile, e3, e4]

/-- Witness for C5: the all-conflict bound and the single-conflict success at
concrete inputs. -/
theorem updateRevision_conflict_retry_witness :
    ((updateRevisionWithRetry 3
        (List.replicate 3 UpdateResult.conflict) []).2 =
      Except.error DeployErr.conflictRetriesExhausted) ∧
    ((DeploymentReconcile (fun _ _ => "754bcb585") EachObjectChunker
        ⟨"test-depl", "ns", [⟨"test", [⟨"obj0"⟩], []⟩]⟩ []
        [UpdateResult.conflict, UpdateResult.ok] ⟨none, ⟨[]⟩⟩).2.2 =
      Except.ok ()) :=
  ⟨updateRevision_conflict_retry.2.1 [] 3,
   updateRevision_conflict_retry.2.2 (fun _ _ => "754bcb585") ⟨"obj0"⟩⟩

end PackageOperator

